import Mathlib

/-!
Verification of the record-management console against its specification.

The definitions below are a shallow embedding of the repository's data
model and operations: the Firestore collections become lists of records,
each page handler becomes a pure function from its inputs (form state,
selected records, the relevant collection) to the store mutation or UI
outcome it produces, and the Firestore array operations `arrayUnion` /
`arrayRemove` are given their documented semantics (append-if-absent,
remove-all-instances).
-/

namespace Procohat

/-! ## Data model -/

/-- An image reference as stored in `Account.images` (built in
`handleUploadImage` from the ImgBB response). -/
structure ImageRef where
  url : String
  display_url : String
  thumb_url : String
  medium_url : String
  delete_url : String
  image_id : String
  uploadedAt : String
  filename : String
deriving Repr, DecidableEq

/-- A record of the `users` collection. `rejectedAt` and `createdAt` are
server timestamps, modelled as natural numbers; `none` models the field
being absent or set to `null`. -/
structure Account where
  id : String
  username : String
  email : String
  role : String
  status : String
  rejectionReason : Option String
  rejectedAt : Option Nat
  createdBy : String
  createdAt : Option Nat
  images : List ImageRef
deriving Repr, DecidableEq

/-- The snapshot of a user embedded in `Document.assignedUsers`. -/
structure AssignedUser where
  id : String
  username : String
  email : String
deriving Repr, DecidableEq

/-- A record of the `documents` collection. -/
structure DocumentRec where
  id : String
  documentName : String
  assignedUsers : List AssignedUser
  createdBy : String
deriving Repr, DecidableEq

/-- A record of the `clinics` collection (fields beyond ownership are
irrelevant to the claims and kept minimal but present). -/
structure Clinic where
  id : String
  clinicName : String
  doctorName : String
  clinicMail : String
  createdBy : String
deriving Repr, DecidableEq

/-- The document store: the three collections. -/
structure Store where
  users : List Account
  documents : List DocumentRec
  clinics : List Clinic
deriving Repr, DecidableEq

/-! ## Read paths (Firestore queries as issued by each page) -/

/-- UserManagement.fetchUsers: `query(users, where createdBy == user.email)`. -/
def fetchUsers (adminEmail : String) (s : Store) : List Account :=
  s.users.filter (fun u => u.createdBy == adminEmail)

/-- DocumentManagement.fetchDocuments: `query(documents, where createdBy == user.email)`. -/
def fetchDocumentsAdmin (adminEmail : String) (s : Store) : List DocumentRec :=
  s.documents.filter (fun d => d.createdBy == adminEmail)

/-- ClinicManagement.fetchClinics: `query(clinics, where createdBy == user.email)`. -/
def fetchClinicsAdmin (adminEmail : String) (s : Store) : List Clinic :=
  s.clinics.filter (fun c => c.createdBy == adminEmail)

/-- DocumentManagement.fetchApprovedUsers:
`query(users, where createdBy == user.email, where status == approved)`. -/
def fetchApprovedUsers (adminEmail : String) (s : Store) : List Account :=
  s.users.filter (fun u => u.createdBy == adminEmail && u.status == "approved")

/-- UserPortalDashboard.fetchUserDocuments: `getDocs(collection(db, documents))`
with no ownership filter, then a client-side filter keeping the documents
whose `assignedUsers` contains the portal email. -/
def fetchUserDocuments (portalEmail : String) (s : Store) : List DocumentRec :=
  s.documents.filter (fun d => d.assignedUsers.any (fun u => u.email == portalEmail))

/-! ## CSV export (handleDownload in DocumentManagement and the portal dashboard) -/

/-- The CSV text built by `handleDownload`:
`[headers.join(','), ...rows.map(r => r.join(','))].join('\n')` with
`headers = ['Username', 'Email']` and `rows = assignedUsers.map(u => [u.username, u.email])`.
No escaping of any character is performed. -/
def csvContent (assignedUsers : List AssignedUser) : String :=
  String.intercalate "\n"
    ("Username,Email" :: assignedUsers.map (fun u => u.username ++ "," ++ u.email))

/-- `handleDownload` offers `csvContent` as a file named `documentName + ".csv"`.
The result pairs the download filename with the file content. -/
def handleDownload (d : DocumentRec) : String × String :=
  (d.documentName ++ ".csv", csvContent d.assignedUsers)

/-! ## Executable semantics of the JavaScript string builtins the handlers call -/

/-- The JavaScript `String.prototype.trim`: whitespace stripped from both
ends. -/
def jsTrim (s : String) : String :=
  ⟨(((s.toList.dropWhile Char.isWhitespace).reverse.dropWhile Char.isWhitespace).reverse)⟩

/-- Splitting a character list at every at sign, as `split` / `splitOn`
with separator `"@"` does. -/
def splitOnAtSign : List Char → List (List Char)
  | [] => [[]]
  | c :: cs =>
    if c = '@' then [] :: splitOnAtSign cs
    else
      match splitOnAtSign cs with
      | [] => [[c]]
      | p :: ps => (c :: p) :: ps

/-- The JavaScript `type.startsWith('image/')` test. -/
def startsWithImage (ty : String) : Bool :=
  match ty.toList with
  | 'i' :: 'm' :: 'a' :: 'g' :: 'e' :: '/' :: _ => true
  | _ => false

/-! ## Bulk status transition (UserManagement.handleBulkUpdate) -/

/-- The patch written by `handleBulkUpdate` for one selected user:
status is set to the chosen action; if the action is `rejected` the raw
reason string and a server rejection timestamp are stored, otherwise both
fields are set to `null`. -/
def bulkUpdatePatch (a : Account) (bulkAction rejectionReason : String) (now : Nat) : Account :=
  if bulkAction == "rejected" then
    { a with status := bulkAction,
             rejectionReason := some rejectionReason,
             rejectedAt := some now }
  else
    { a with status := bulkAction,
             rejectionReason := none,
             rejectedAt := none }

/-- `handleBulkUpdate`: returns early (with a warning toast, no store
mutation) when no action is chosen, when no user is selected, or when the
action is `rejected` and the trimmed reason is empty; otherwise patches
every selected user. `none` models the early return. -/
def handleBulkUpdate (bulkAction : String) (selectedUsers : List String)
    (rejectionReason : String) (now : Nat) (users : List Account) :
    Option (List Account) :=
  if bulkAction == "" then none
  else if selectedUsers.length == 0 then none
  else if bulkAction == "rejected" && jsTrim rejectionReason == "" then none
  else some (users.map (fun a =>
    if a.id ∈ selectedUsers then bulkUpdatePatch a bulkAction rejectionReason now else a))

/-! ## Portal login (UserPortalLogin.handleSubmit) -/

/-- A character allowed by each block of the login email regular
expression `[^\s@]+`: anything but whitespace and the at sign. -/
def isEmailChar (c : Char) : Bool :=
  !c.isWhitespace && c != '@'

/-- True when the character list has a dot strictly after its first
element and strictly before its last: the split `b ++ [dot] ++ c` with
`b` and `c` non-empty demanded by the regular expression. -/
def hasInteriorDot : List Char → Bool
  | [] => false
  | _ :: rest => rest.dropLast.contains '.'

/-- The test performed by the login regular expression, of shape: one or
more non-space non-at characters, an at sign, one or more such characters,
a dot, one or more such characters, anchored at both ends. -/
def emailRegexTest (s : String) : Bool :=
  match splitOnAtSign s.toList with
  | [a, d] =>
      !a.isEmpty && a.all isEmailChar &&
      !d.isEmpty && d.all isEmailChar &&
      hasInteriorDot d
  | _ => false

/-- Outcome of the portal login attempt: a displayed error message, or
the authenticated transition (the email is written to tab-scoped session
storage and the view navigates to the portal dashboard). -/
inductive LoginResult where
  | error (msg : String)
  | authenticated (storedEmail : String)
deriving Repr, DecidableEq

/-- UserPortalLogin.handleSubmit: empty-after-trim and regular-expression
checks, then a query of `users` by equality on the trimmed email; the
decision reads only the first record of the query result. -/
def portalLogin (email : String) (users : List Account) : LoginResult :=
  if jsTrim email = "" then .error "Please enter your email address"
  else if emailRegexTest email = false then .error "Please enter a valid email address"
  else
    match users.filter (fun u => u.email == jsTrim email) with
    | [] => .error "Email not found. Please contact your administrator."
    | u :: _ =>
      if u.status ≠ "approved" then
        .error ("Your account verification is " ++ u.status ++ ". Please contact your administrator.")
      else .authenticated (jsTrim email)

/-! ## Image upload (UserPortalDashboard.handleFileSelect / handleUploadImage) -/

/-- The browser file object fields the handlers read. -/
structure JsFile where
  name : String
  type : String
  size : Nat
deriving Repr, DecidableEq

/-- `handleFileSelect`: the chosen file becomes the selected file only
when its MIME type begins with `image/` and its size is at most
5 * 1024 * 1024 bytes; otherwise an error toast is shown and the function
returns before the file is stored. -/
def handleFileSelect (f : JsFile) : Option JsFile :=
  if !(startsWithImage f.type) then none
  else if f.size > 5 * 1024 * 1024 then none
  else some f

/-- Outcome of `handleUploadImage`: either an early return before the
ImgBB call (no HTTP request issued), or the HTTP upload request carrying
the selected file. -/
inductive UploadOutcome where
  | rejectedNoRequest
  | requested (payload : JsFile)
deriving Repr, DecidableEq

/-- `handleUploadImage` up to its network call: returns before the ImgBB
request when no file is selected, or when the account already holds three
or more images and this is not a replace (`editingImage` unset). -/
def handleUploadImage (selectedFile : Option JsFile) (userImages : List ImageRef)
    (editingImage : Option ImageRef) : UploadOutcome :=
  match selectedFile with
  | none => .rejectedNoRequest
  | some f =>
    if userImages.length ≥ 3 && editingImage.isNone then .rejectedNoRequest
    else .requested f

/-- Selecting a file and then pressing upload: a file refused by
`handleFileSelect` never becomes the selected file, so no request can
carry it. -/
def selectThenUpload (f : JsFile) (userImages : List ImageRef)
    (editingImage : Option ImageRef) : UploadOutcome :=
  handleUploadImage (handleFileSelect f) userImages editingImage

/-! ## Firestore array-field operations (documented external semantics)

`arrayRemove(x)` removes all instances of `x` from the array field;
`arrayUnion(x)` adds `x` only when no equal element is already present.
Equality is full per-field value equality. -/

/-- Firestore `arrayRemove` on an image array. -/
def arrayRemoveEl (xs : List ImageRef) (x : ImageRef) : List ImageRef :=
  xs.filter (fun y => y != x)

/-- Firestore `arrayUnion` on an image array. -/
def arrayUnionEl (xs : List ImageRef) (x : ImageRef) : List ImageRef :=
  if xs.contains x then xs else xs ++ [x]

/-- UserPortalDashboard.handleDeleteImage: one `updateDoc` with
`images: arrayRemove(image)`. -/
def handleDeleteImage (a : Account) (image : ImageRef) : Account :=
  { a with images := arrayRemoveEl a.images image }

/-- First mutation of the replace path: `updateDoc` with
`images: arrayRemove(editingImage)`. -/
def replaceStep1 (a : Account) (oldImg : ImageRef) : Account :=
  { a with images := arrayRemoveEl a.images oldImg }

/-- Second mutation of the replace path: `updateDoc` with
`images: arrayUnion(imageData)`. -/
def replaceStep2 (a : Account) (newImg : ImageRef) : Account :=
  { a with images := arrayUnionEl a.images newImg }

/-- The replace path of `handleUploadImage`: the two mutations issued in
sequence, with no transaction around them. -/
def handleReplaceImage (a : Account) (oldImg newImg : ImageRef) : Account :=
  replaceStep2 (replaceStep1 a oldImg) newImg

/-! ## Dashboard Add New User form (Dashboard.handleSubmit) -/

/-- The form state of the Add New User form. -/
structure DashboardForm where
  username : String
  email : String
  role : String
  status : String
deriving Repr, DecidableEq

/-- Initial form state: every field starts as the empty string. -/
def initialForm : DashboardForm := ⟨"", "", "", ""⟩

/-- The options offered by the role dropdown. -/
def roleOptions : List String := ["admin", "user"]

/-- The options offered by the status dropdown. -/
def statusOptions : List String := ["pending", "approved", "rejected"]

/-- Form states reachable through the form controls: text inputs accept
any string for username and email; the two dropdowns only ever set their
field to one of the offered options. No control resets a field to the
empty string except the initial state. -/
inductive FormReachable : DashboardForm → Prop where
  | init : FormReachable initialForm
  | inputUsername (f : DashboardForm) (v : String) :
      FormReachable f → FormReachable { f with username := v }
  | inputEmail (f : DashboardForm) (v : String) :
      FormReachable f → FormReachable { f with email := v }
  | selectRole (f : DashboardForm) (v : String) :
      v ∈ roleOptions → FormReachable f → FormReachable { f with role := v }
  | selectStatus (f : DashboardForm) (v : String) :
      v ∈ statusOptions → FormReachable f → FormReachable { f with status := v }

/-- Whether the browser lets the form submit: the username and email
inputs carry the `required` attribute, the two dropdowns carry no
constraint at all. -/
def canSubmit (f : DashboardForm) : Bool :=
  f.username != "" && f.email != ""

/-- The record written by Dashboard.handleSubmit:
`{...formData, createdAt: serverTimestamp(), createdBy: user?.email || 'unknown'}`.
No validation of role or status is performed. -/
def dashboardHandleSubmit (f : DashboardForm) (adminEmail : Option String) (now : Nat) :
    Account :=
  { id := "", username := f.username, email := f.email, role := f.role,
    status := f.status, rejectionReason := none, rejectedAt := none,
    createdBy := adminEmail.getD "unknown", createdAt := some now, images := [] }

/-! ## Fetch-failure handlers (catch blocks of the three admin fetches) -/

/-- A Firestore error as observed by the catch blocks. -/
structure StoreError where
  code : String
deriving Repr, DecidableEq

/-- Catch block of DocumentManagement.fetchDocuments: an error toast is
shown only when the code differs from `permission-denied`, and the
component documents state is set to the empty list. Result: the new list
state paired with whether a notice was shown. -/
def fetchDocumentsOnError (prevDocs : List DocumentRec) (e : StoreError) :
    List DocumentRec × Bool :=
  ([], e.code != "permission-denied")

/-- Catch block of UserManagement.fetchUsers: an error toast is always
shown and the users state is left untouched. -/
def fetchUsersOnError (prevUsers : List Account) (e : StoreError) :
    List Account × Bool :=
  (prevUsers, true)

/-- Catch block of ClinicManagement.fetchClinics: an error toast is
always shown and the clinics state is left untouched. -/
def fetchClinicsOnError (prevClinics : List Clinic) (e : StoreError) :
    List Clinic × Bool :=
  (prevClinics, true)

/-! ## Concrete records used by witnesses and counterexamples -/

/-- A sample image reference. -/
def exImg : ImageRef :=
  ⟨"https://i.ibb.co/1.png", "https://i.ibb.co/d1.png", "https://i.ibb.co/t1.png",
   "https://i.ibb.co/m1.png", "https://ibb.co/del1", "id1", "2024-01-01T00:00:00Z", "one.png"⟩

/-- A second, distinct sample image reference. -/
def exImg2 : ImageRef :=
  ⟨"https://i.ibb.co/2.png", "https://i.ibb.co/d2.png", "https://i.ibb.co/t2.png",
   "https://i.ibb.co/m2.png", "https://ibb.co/del2", "id2", "2024-02-02T00:00:00Z", "two.png"⟩

/-- A pending account owned by admin `a@x.com`. -/
def exAcct : Account :=
  { id := "u1", username := "bob", email := "b@y.com", role := "user",
    status := "pending", rejectionReason := none, rejectedAt := none,
    createdBy := "a@x.com", createdAt := some 1, images := [] }

/-- An account holding two distinct images. -/
def exAcctImgs : Account :=
  { exAcct with id := "u2", email := "c@y.com", images := [exImg, exImg2] }

/-- An account holding the same image entry twice. -/
def exAcctDup : Account :=
  { exAcct with id := "u3", email := "d@y.com", images := [exImg, exImg] }

/-- A pending account reachable by portal email `p@y.com`. -/
def exPendingAcct : Account :=
  { exAcct with id := "u4", email := "p@y.com", status := "pending" }

/-- A document created by admin `a@x.com` and assigned to `b@y.com`. -/
def exDoc : DocumentRec :=
  ⟨"d1", "Report", [⟨"u1", "bob", "b@y.com"⟩], "a@x.com"⟩

/-- A store whose only document was created by `a@x.com`. -/
def exStore : Store := ⟨[exAcct], [exDoc], []⟩

/-- An oversized (6 MB) image file. -/
def exBigFile : JsFile := ⟨"big.png", "image/png", 6 * 1024 * 1024⟩

/-- A dashboard form with every field chosen. -/
def exForm : DashboardForm := ⟨"bob", "b@y.com", "user", "approved"⟩

/-! ## Helper lemmas -/

/-- The accumulator recursion of `String.intercalate` is a left fold. -/
theorem intercalate_go_foldl (sep : String) :
    ∀ (l : List String) (acc : String),
      String.intercalate.go acc sep l = l.foldl (fun a r => a ++ sep ++ r) acc := by
  intro l
  induction l with
  | nil => intro acc; rfl
  | cons a as ih =>
    intro acc
    rw [String.intercalate.go, List.foldl_cons]
    exact ih _

/-- Removing, via a full filter, an element that occurs exactly once
shortens the list by exactly one. -/
theorem length_filter_bne_of_count_one (x : ImageRef) :
    ∀ xs : List ImageRef, xs.count x = 1 →
      (xs.filter (fun y => y != x)).length + 1 = xs.length := by
  intro xs
  induction xs with
  | nil => intro h; simp at h
  | cons b t ih =>
    intro h
    by_cases hbx : b = x
    · subst hbx
      rw [List.count_cons_self] at h
      have ht : t.count b = 0 := by omega
      have hnot : b ∉ t := List.count_eq_zero.mp ht
      have hfil : t.filter (fun y => y != b) = t := by
        rw [List.filter_eq_self]
        intro y hy
        simp only [bne_iff_ne]
        intro he
        exact hnot (he ▸ hy)
      simp [List.filter_cons, hfil]
    · have hbeq : (b == x) = false := by simp [hbx]
      rw [List.count_cons, hbeq] at h
      simp at h
      have hkeep : (b != x) = true := by simp [bne, hbeq]
      simp only [List.filter_cons, hkeep, if_true, List.length_cons]
      have := ih h
      omega

/-! ## Claims -/

/-- C5: the CSV export is exactly the header row `Username,Email`
followed, for each assigned user in order, by a newline and the username
and email joined with a comma, with no escaping; the file is offered as
`<documentName>.csv`; on the two-user example the output is the literal
string of the claim. -/
theorem C5_csv_export (users : List AssignedUser) (d : DocumentRec) :
    csvContent users =
      users.foldl (fun acc u => acc ++ "\n" ++ u.username ++ "," ++ u.email) "Username,Email" ∧
    (handleDownload d).1 = d.documentName ++ ".csv" ∧
    (handleDownload d).2 = csvContent d.assignedUsers ∧
    csvContent [⟨"i1", "Bob", "b@x.com"⟩, ⟨"i2", "Amy", "a@y.com"⟩] =
      "Username,Email\nBob,b@x.com\nAmy,a@y.com" := by
  refine ⟨?_, rfl, rfl, by decide⟩
  show String.intercalate.go "Username,Email" "\n" (users.map fun u => u.username ++ "," ++ u.email) = _
  rw [intercalate_go_foldl, List.foldl_map]
  simp [String.append_assoc]

/-- C4: a selected file with MIME type not beginning in `image/` or with
size above 5 MB is refused before any network call (it never becomes the
selected file, so no request can carry it); and on the non-replace path an
upload attempted while three images are already stored returns before the
ImgBB request. -/
theorem C4_upload_preconditions (f : JsFile) (imgs : List ImageRef)
    (editing : Option ImageRef) :
    ((5 * 1024 * 1024 < f.size ∨ startsWithImage f.type = false) →
        handleFileSelect f = none ∧
        selectThenUpload f imgs editing = .rejectedNoRequest) ∧
    (imgs.length = 3 → editing = none →
        selectThenUpload f imgs editing = .rejectedNoRequest) := by
  constructor
  · intro hbad
    have hsel : handleFileSelect f = none := by
      unfold handleFileSelect
      rcases hbad with hsize | htype
      · by_cases ht : startsWithImage f.type
        · simp [ht, hsize]
        · simp [ht]
      · simp [htype]
    exact ⟨hsel, by simp [selectThenUpload, hsel, handleUploadImage]⟩
  · intro hlen hedit
    unfold selectThenUpload handleUploadImage
    cases hsel : handleFileSelect f with
    | none => rfl
    | some g => simp [hlen, hedit]

/-- Witness for C4: a 6 MB image file is refused before any network
call. -/
theorem C4_upload_witness :
    handleFileSelect exBigFile = none ∧
    selectThenUpload exBigFile [] none = .rejectedNoRequest :=
  (C4_upload_preconditions exBigFile [] none).1 (Or.inl (by decide))

/-- C10: when the admin documents fetch fails, the documents state is
cleared to the empty list and a notice is shown exactly when the error
code differs from `permission-denied`; the users and clinics fetch
failures always show a notice and leave the previous state unchanged. -/
theorem C10_fetch_error_handling (prevD : List DocumentRec) (prevU : List Account)
    (prevC : List Clinic) (e : StoreError) :
    (fetchDocumentsOnError prevD e).1 = [] ∧
    ((fetchDocumentsOnError prevD e).2 = true ↔ e.code ≠ "permission-denied") ∧
    fetchUsersOnError prevU e = (prevU, true) ∧
    fetchClinicsOnError prevC e = (prevC, true) := by
  refine ⟨rfl, ?_, rfl, rfl⟩
  simp [fetchDocumentsOnError]

/-- C1 (amended): every admin-facing list/query path — users, documents,
clinics, approved users — returns only records whose createdBy equals the
calling admin email; the portal read paths are the exception recorded in
the counterexample. -/
theorem C1_admin_reads_owner_scoped (adminEmail : String) (s : Store) :
    (∀ r ∈ fetchUsers adminEmail s, r.createdBy = adminEmail) ∧
    (∀ r ∈ fetchDocumentsAdmin adminEmail s, r.createdBy = adminEmail) ∧
    (∀ r ∈ fetchClinicsAdmin adminEmail s, r.createdBy = adminEmail) ∧
    (∀ r ∈ fetchApprovedUsers adminEmail s, r.createdBy = adminEmail) := by
  refine ⟨?_, ?_, ?_, ?_⟩
  · intro r hr
    simp only [fetchUsers, List.mem_filter, beq_iff_eq] at hr
    exact hr.2
  · intro r hr
    simp only [fetchDocumentsAdmin, List.mem_filter, beq_iff_eq] at hr
    exact hr.2
  · intro r hr
    simp only [fetchClinicsAdmin, List.mem_filter, beq_iff_eq] at hr
    exact hr.2
  · intro r hr
    simp only [fetchApprovedUsers, List.mem_filter, Bool.and_eq_true, beq_iff_eq] at hr
    exact hr.2.1

/-- C1 counterexample: the portal document fetch, issued with the session
identity `b@y.com`, returns a document whose createdBy is the distinct
admin identity `a@x.com` — a read path outside the caller's own tenant. -/
theorem C1_portal_cross_tenant_read :
    exDoc ∈ fetchUserDocuments "b@y.com" exStore ∧
    exDoc.createdBy = "a@x.com" ∧ ("a@x.com" : String) ≠ "b@y.com" := by
  exact ⟨by decide, rfl, by decide⟩

/-- Witness for C1: the owner-scoping theorem applied to the sample
store. -/
theorem C1_owner_scoped_witness : exAcct.createdBy = "a@x.com" :=
  (C1_admin_reads_owner_scoped "a@x.com" exStore).1 exAcct (by decide)

/-- C2: a bulk transition over selected ids proceeds to the store, when
the target is `rejected`, only with a reason that is non-empty after
trimming, and every selected account then carries that reason and the
rejection timestamp; for target `approved` or `pending` every selected
account ends with both fields cleared. -/
theorem C2_bulk_status_transition (action : String) (selected : List String)
    (reason : String) (now : Nat) (users us' : List Account)
    (hsel : selected ≠ [])
    (h : handleBulkUpdate action selected reason now users = some us') :
    (action = "rejected" →
      jsTrim reason ≠ "" ∧
      ∀ a' ∈ us', a'.id ∈ selected →
        a'.status = "rejected" ∧ a'.rejectionReason = some reason ∧
        reason ≠ "" ∧ a'.rejectedAt = some now) ∧
    ((action = "approved" ∨ action = "pending") →
      ∀ a' ∈ us', a'.id ∈ selected →
        a'.status = action ∧ a'.rejectionReason = none ∧ a'.rejectedAt = none) := by
  unfold handleBulkUpdate at h
  by_cases hA : (action == "") = true
  · rw [if_pos hA] at h; exact absurd h (by simp)
  rw [if_neg hA] at h
  by_cases hB : (selected.length == 0) = true
  · rw [if_pos hB] at h; exact absurd h (by simp)
  rw [if_neg hB] at h
  by_cases hC : (action == "rejected" && jsTrim reason == "") = true
  · rw [if_pos hC] at h; exact absurd h (by simp)
  rw [if_neg hC] at h
  injection h with hmap
  constructor
  · intro hact
    subst hact
    have htrim : jsTrim reason ≠ "" := by
      intro h0
      exact hC (by simp [h0])
    refine ⟨htrim, ?_⟩
    intro a' ha' hid
    rw [← hmap] at ha'
    rcases List.mem_map.mp ha' with ⟨a, _, rfl⟩
    by_cases hc : a.id ∈ selected
    · simp only [hc, if_true, bulkUpdatePatch, if_pos] at hid ⊢
      refine ⟨by simp, by simp, ?_, by simp⟩
      intro h0
      subst h0
      exact htrim rfl
    · simp only [hc, if_false] at hid
  · intro hact
    intro a' ha' hid
    rw [← hmap] at ha'
    rcases List.mem_map.mp ha' with ⟨a, _, rfl⟩
    by_cases hc : a.id ∈ selected
    · have hne : (action == "rejected") = false := by
        rcases hact with h' | h' <;> simp [h']
      simp only [hc, if_true, bulkUpdatePatch, hne] at hid ⊢
      simp
    · simp only [hc, if_false] at hid

/-- Witness for C2: the bulk-rejection theorem applied to one selected
account with reason `no documents` at server time 7. -/
theorem C2_bulk_witness :
    jsTrim "no documents" ≠ "" ∧
    (bulkUpdatePatch exAcct "rejected" "no documents" 7).status = "rejected" ∧
    (bulkUpdatePatch exAcct "rejected" "no documents" 7).rejectionReason = some "no documents" ∧
    (bulkUpdatePatch exAcct "rejected" "no documents" 7).rejectedAt = some 7 := by
  have h := C2_bulk_status_transition "rejected" ["u1"] "no documents" 7 [exAcct]
      [bulkUpdatePatch exAcct "rejected" "no documents" 7] (by decide) (by decide)
  have h1 := h.1 rfl
  refine ⟨h1.1, ?_⟩
  have h2 := h1.2 (bulkUpdatePatch exAcct "rejected" "no documents" 7) (by decide) (by decide)
  exact ⟨h2.1, h2.2.1, h2.2.2.2⟩

/-- C3: the portal session becomes authenticated only when the submitted
email passes the syntactic test and the first account matching the
trimmed email has status exactly `approved`; when that account is
`pending` or `rejected` the login yields a denial message that contains
the literal status value, and no authentication. -/
theorem C3_portal_login_gating (email : String) (users : List Account) :
    (∀ e', portalLogin email users = .authenticated e' →
       e' = jsTrim email ∧ emailRegexTest email = true ∧
       ∃ u, (users.filter (fun v => v.email == jsTrim email)).head? = some u ∧
         u ∈ users ∧ u.email = jsTrim email ∧ u.status = "approved") ∧
    (∀ u, (users.filter (fun v => v.email == jsTrim email)).head? = some u →
       (u.status = "pending" ∨ u.status = "rejected") →
       jsTrim email ≠ "" → emailRegexTest email = true →
       portalLogin email users =
         .error ("Your account verification is " ++ u.status ++
           ". Please contact your administrator.") ∧
       ∀ e', portalLogin email users ≠ .authenticated e') := by
  constructor
  · intro e' h
    by_cases h1 : jsTrim email = ""
    · unfold portalLogin at h
      rw [if_pos h1] at h
      exact absurd h (by simp)
    by_cases h2 : emailRegexTest email = false
    · unfold portalLogin at h
      rw [if_neg h1, if_pos h2] at h
      exact absurd h (by simp)
    cases hf : users.filter (fun v => v.email == jsTrim email) with
    | nil =>
      have hval : portalLogin email users =
          .error "Email not found. Please contact your administrator." := by
        unfold portalLogin
        rw [if_neg h1, if_neg h2, hf]
      rw [hval] at h
      exact absurd h (by simp)
    | cons u rest =>
      have hval : portalLogin email users =
          if u.status ≠ "approved" then
            .error ("Your account verification is " ++ u.status ++
              ". Please contact your administrator.")
          else .authenticated (jsTrim email) := by
        unfold portalLogin
        rw [if_neg h1, if_neg h2, hf]
      rw [hval] at h
      by_cases hs : u.status ≠ "approved"
      · rw [if_pos hs] at h; exact absurd h (by simp)
      · rw [if_neg hs] at h
        have he' : e' = jsTrim email := by
          cases h; rfl
        have hu : u ∈ users.filter (fun v => v.email == jsTrim email) := by
          rw [hf]; exact List.mem_cons_self u rest
        have hu' := List.mem_filter.mp hu
        refine ⟨he', by simpa using h2, u, rfl, hu'.1,
          beq_iff_eq.mp hu'.2, not_not.mp hs⟩
  · intro u hu hst hne hreg
    have hsne : u.status ≠ "approved" := by
      rcases hst with h' | h' <;> simp [h']
    cases hf : users.filter (fun v => v.email == jsTrim email) with
    | nil => rw [hf] at hu; exact absurd hu (by simp)
    | cons v rest =>
      rw [hf] at hu
      have hv : v = u := by simpa using hu
      subst hv
      have hval : portalLogin email users =
          .error ("Your account verification is " ++ v.status ++
            ". Please contact your administrator.") := by
        unfold portalLogin
        rw [if_neg hne, if_neg (by simp [hreg]), hf]
        exact if_pos hsne
      exact ⟨hval, fun e' hcontra => by rw [hval] at hcontra; exact absurd hcontra (by simp)⟩

/-- Witness for C3: a pending account denies the portal login with the
status value inside the message. -/
theorem C3_portal_witness :
    portalLogin "p@y.com" [exPendingAcct] =
      .error ("Your account verification is " ++ exPendingAcct.status ++
        ". Please contact your administrator.") := by
  have h := (C3_portal_login_gating "p@y.com" [exPendingAcct]).2 exPendingAcct
      (by decide) (Or.inl rfl) (by decide) (by decide)
  exact h.1

/-- C9: the portal login decision is a function of the first record of
the email query result alone: two stores whose queries agree on the first
matching record produce the same outcome, so the statuses of later
matching records are never consulted. -/
theorem C9_first_match_decides (email : String) (users1 users2 : List Account)
    (h : (users1.filter (fun u => u.email == jsTrim email)).head? =
         (users2.filter (fun u => u.email == jsTrim email)).head?) :
    portalLogin email users1 = portalLogin email users2 := by
  unfold portalLogin
  by_cases h1 : jsTrim email = ""
  · simp [h1]
  · rw [if_neg h1, if_neg h1]
    by_cases h2 : emailRegexTest email = false
    · simp [h2]
    · rw [if_neg h2, if_neg h2]
      cases hf1 : users1.filter (fun u => u.email == jsTrim email) with
      | nil =>
        cases hf2 : users2.filter (fun u => u.email == jsTrim email) with
        | nil => rfl
        | cons v rest => rw [hf1, hf2] at h; exact absurd h (by simp)
      | cons u rest1 =>
        cases hf2 : users2.filter (fun u => u.email == jsTrim email) with
        | nil => rw [hf1, hf2] at h; exact absurd h (by simp)
        | cons v rest2 =>
          rw [hf1, hf2] at h
          have huv : u = v := by simpa using h
          subst huv
          rfl

/-- Witness for C9: two user lists sharing the same first match for
`p@y.com` but with different second records produce the same login
outcome. -/
theorem C9_first_match_witness :
    portalLogin "p@y.com" [exPendingAcct, exAcct] =
      portalLogin "p@y.com" [exPendingAcct, exAcctImgs] :=
  C9_first_match_decides "p@y.com" [exPendingAcct, exAcct] [exPendingAcct, exAcctImgs]
    (by decide)

/-- C6 counterexample: on an account holding the same image entry twice,
deleting one of them removes both — the byte-identical entry elsewhere in
the array is not left in place, because arrayRemove removes all instances
equal to its argument. -/
theorem C6_duplicate_removed_too :
    exAcctDup.images = [exImg, exImg] ∧
    (handleDeleteImage exAcctDup exImg).images = [] ∧
    (handleDeleteImage exAcctDup exImg).images ≠ [exImg] := by
  refine ⟨rfl, by decide, by decide⟩

/-- C6 (amended): deleting an image removes every entry equal to it; on a
duplicate-free images array — the invariant maintained by the
arrayUnion-based additions — exactly that one entry is removed and every
other entry stays. -/
theorem C6_delete_image_nodup (a : Account) (img : ImageRef)
    (hnd : a.images.Nodup) (hmem : img ∈ a.images) :
    (handleDeleteImage a img).images = a.images.filter (fun y => y != img) ∧
    (handleDeleteImage a img).images = a.images.erase img ∧
    (handleDeleteImage a img).images.length + 1 = a.images.length ∧
    ∀ y ∈ a.images, y ≠ img → y ∈ (handleDeleteImage a img).images := by
  have h1 : (handleDeleteImage a img).images = a.images.filter (fun y => y != img) := rfl
  have herase : a.images.erase img = a.images.filter (fun y => y != img) :=
    List.Nodup.erase_eq_filter hnd img
  have hcount : a.images.count img = 1 := List.count_eq_one_of_mem hnd hmem
  refine ⟨h1, by rw [h1, herase], ?_, ?_⟩
  · rw [h1]
    exact length_filter_bne_of_count_one img a.images hcount
  · intro y hy hne
    rw [h1]
    exact List.mem_filter.mpr ⟨hy, by simpa [bne_iff_ne] using hne⟩

/-- Witness for C6: deleting the first of two distinct images removes
exactly one entry. -/
theorem C6_delete_witness :
    (handleDeleteImage exAcctImgs exImg).images = exAcctImgs.images.erase exImg ∧
    (handleDeleteImage exAcctImgs exImg).images.length + 1 = exAcctImgs.images.length := by
  have h := C6_delete_image_nodup exAcctImgs exImg (by decide) (by decide)
  exact ⟨h.2.1, h.2.2.1⟩

/-- C7: replacing an image is the composition of two separate sequential
mutations — remove the old element, then add the new one — and the
intermediate state after the first mutation holds exactly one image fewer
than before the replace began. -/
theorem C7_replace_two_mutations (a : Account) (oldImg newImg : ImageRef)
    (hcount : a.images.count oldImg = 1) :
    handleReplaceImage a oldImg newImg = replaceStep2 (replaceStep1 a oldImg) newImg ∧
    (replaceStep1 a oldImg).images.length + 1 = a.images.length := by
  refine ⟨rfl, ?_⟩
  exact length_filter_bne_of_count_one oldImg a.images hcount

/-- Witness for C7: replacing the first of two images passes through an
intermediate state with one image. -/
theorem C7_replace_witness :
    (replaceStep1 exAcctImgs exImg).images.length + 1 = exAcctImgs.images.length :=
  (C7_replace_two_mutations exAcctImgs exImg exImg2 (by decide)).2

/-- C8 counterexample: the Add New User form is submittable from a state
in which neither dropdown was ever touched — only the username and email
inputs carry the required attribute — and the record then written has the
empty string as status and role, outside both option sets. -/
theorem C8_empty_status_submittable :
    FormReachable ⟨"alice", "alice@x.com", "", ""⟩ ∧
    canSubmit ⟨"alice", "alice@x.com", "", ""⟩ = true ∧
    (dashboardHandleSubmit ⟨"alice", "alice@x.com", "", ""⟩ (some "a@x.com") 0).status ∉ statusOptions ∧
    (dashboardHandleSubmit ⟨"alice", "alice@x.com", "", ""⟩ (some "a@x.com") 0).role ∉ roleOptions := by
  refine ⟨?_, by decide, by decide, by decide⟩
  have h0 : FormReachable initialForm := FormReachable.init
  have h1 := FormReachable.inputUsername initialForm "alice" h0
  have h2 := FormReachable.inputEmail ⟨"alice", "", "", ""⟩ "alice@x.com" h1
  exact h2

/-- C8 (amended): a record created through the form carries exactly the
form's current role and status — each either one of the offered options
or the untouched empty string — and is stamped with createdBy equal to
the current admin email and a server-assigned creation timestamp. -/
theorem C8_created_account_fields (f : DashboardForm) (hf : FormReachable f)
    (adminEmail : String) (now : Nat) :
    (f.role = "" ∨ f.role ∈ roleOptions) ∧
    (f.status = "" ∨ f.status ∈ statusOptions) ∧
    (dashboardHandleSubmit f (some adminEmail) now).createdBy = adminEmail ∧
    (dashboardHandleSubmit f (some adminEmail) now).createdAt = some now ∧
    (dashboardHandleSubmit f (some adminEmail) now).role = f.role ∧
    (dashboardHandleSubmit f (some adminEmail) now).status = f.status := by
  refine ⟨?_, ?_, rfl, rfl, rfl, rfl⟩
  · induction hf with
    | init => exact Or.inl rfl
    | inputUsername g v hg ih => exact ih
    | inputEmail g v hg ih => exact ih
    | selectRole g v hv hg ih => exact Or.inr hv
    | selectStatus g v hv hg ih => exact ih
  · induction hf with
    | init => exact Or.inl rfl
    | inputUsername g v hg ih => exact ih
    | inputEmail g v hg ih => exact ih
    | selectRole g v hv hg ih => exact ih
    | selectStatus g v hv hg ih => exact Or.inr hv

/-- Witness for C8: a fully selected form yields a record with the chosen
role and status and the admin stamp. -/
theorem C8_created_witness :
    (exForm.role = "" ∨ exForm.role ∈ roleOptions) ∧
    (exForm.status = "" ∨ exForm.status ∈ statusOptions) ∧
    (dashboardHandleSubmit exForm (some "a@x.com") 5).createdBy = "a@x.com" ∧
    (dashboardHandleSubmit exForm (some "a@x.com") 5).createdAt = some 5 ∧
    (dashboardHandleSubmit exForm (some "a@x.com") 5).role = exForm.role ∧
    (dashboardHandleSubmit exForm (some "a@x.com") 5).status = exForm.status := by
  have h0 : FormReachable initialForm := FormReachable.init
  have h1 := FormReachable.inputUsername initialForm "bob" h0
  have h2 := FormReachable.inputEmail ⟨"bob", "", "", ""⟩ "b@y.com" h1
  have h3 := FormReachable.selectRole ⟨"bob", "b@y.com", "", ""⟩ "user" (by decide) h2
  have h4 := FormReachable.selectStatus ⟨"bob", "b@y.com", "user", ""⟩ "approved" (by decide) h3
  exact C8_created_account_fields exForm h4 "a@x.com" 5

end Procohat
